import Mathlib

/-!
Verification development for the attendance-system-be repository.

The Go source is shallowly embedded: database tables become lists of
records, timestamps become natural numbers (ordering is all the SQL
queries use), SQL statements become pure functions on those lists, and
the Fiber handlers become functions from an input state to a response
plus an output state.  HTTP responses are modelled by their status code,
success flag, message string, and the returned attendance id when one is
present.
-/

namespace Attend

/-- One row of the `attendances` table (migration `000001_init_schema.up.sql`):
`id`, `user_id`, `check_in_at`, nullable `check_out_at`, nullable `notes`.
Timestamps are modelled as `Nat`. -/
structure Attendance where
  id : Nat
  userId : Nat
  checkInAt : Nat
  checkOutAt : Option Nat
  notes : Option String
deriving DecidableEq, Repr

/-- One row of the `user_schedules` table: `id`, `user_id`, `shift_id`,
`date` (a calendar day, modelled as a day index). -/
structure UserSchedule where
  id : Nat
  userId : Nat
  shiftId : Nat
  date : Nat
deriving DecidableEq, Repr

/-- The essence of `models.Response` together with the HTTP status code the
handler attaches: `c.Status(code).JSON(models.Response{Success, Message, Data})`.
`dataId` is the id field of the `Data` payload when the handler sends one
(`attendance_id` for the attendance handlers, `scheduleId` for schedule
creation). -/
structure Response where
  status : Nat
  success : Bool
  message : String
  dataId : Option Nat
deriving DecidableEq, Repr

def okResp (msg : String) (attId : Nat) : Response := ⟨200, true, msg, some attId⟩

def createdResp (msg : String) (newId : Nat) : Response := ⟨201, true, msg, some newId⟩

def badRequestResp (msg : String) : Response := ⟨400, false, msg, none⟩

def unauthorizedResp (msg : String) : Response := ⟨401, false, msg, none⟩

def conflictResp (msg : String) : Response := ⟨409, false, msg, none⟩

def forbiddenResp (msg : String) : Response := ⟨403, false, msg, none⟩

def notFoundResp (msg : String) : Response := ⟨404, false, msg, none⟩

def serverErrorResp (msg : String) : Response := ⟨500, false, msg, none⟩

/-- The SQL `ORDER BY check_in_at DESC LIMIT 1` over a list of rows: the row with
the largest `check_in_at` (first such row when several tie, which the SQL
leaves unspecified). -/
def lastOf : List Attendance → Option Attendance
  | [] => none
  | a :: rest =>
    match lastOf rest with
    | none => some a
    | some b => if b.checkInAt > a.checkInAt then some b else some a

/-- Go `attendanceRepo.GetLastAttendance`: most recent attendance row of a user,
`pgx.ErrNoRows` (here `none`) when the user has no rows at all. -/
def getLastAttendance (db : List Attendance) (uid : Nat) : Option Attendance :=
  lastOf (db.filter (fun a => a.userId == uid))

/-- Seconds per day, used to turn a timestamp into its calendar day the way
`time.Date(now.Year(), now.Month(), now.Day(), 0, 0, 0, 0, loc)` truncates
`now` to the start of its day. -/
def secPerDay : Nat := 86400

/-- Errors a repository call can surface to a handler.  `noRows` stands for
`pgx.ErrNoRows`, `other` for any other database failure. -/
inductive RepoErr where
  | noRows
  | other (msg : String)
deriving DecidableEq, Repr

/-- Go `scheduleRepo.GetScheduleByUserAndDate`: `SELECT ... FROM user_schedules
WHERE user_id = $1 AND date = $2`.  The Go function maps `pgx.ErrNoRows` to
`return nil, nil`, so the "not found" case is `.ok none`, never
`.error .noRows`. -/
def getScheduleByUserAndDate (schedules : List UserSchedule) (uid day : Nat) :
    Except RepoErr (Option UserSchedule) :=
  match schedules.find? (fun s => s.userId == uid && s.date == day) with
  | some s => Except.ok (some s)
  | none => Except.ok none

/-- The persistent state the attendance handlers touch: the `attendances`
and `user_schedules` tables plus the next id the `SERIAL` column will
assign. -/
structure AttState where
  attendances : List Attendance
  schedules : List UserSchedule
  nextId : Nat
deriving DecidableEq, Repr

/-- Go `attendanceRepo.CreateCheckIn`: `INSERT INTO attendances (user_id,
check_in_at, notes) VALUES ($1, $2, $3) RETURNING id`. -/
def createCheckIn (st : AttState) (uid now : Nat) (notes : Option String) :
    Nat × AttState :=
  (st.nextId,
    { st with
      attendances := st.attendances ++ [⟨st.nextId, uid, now, none, notes⟩]
      nextId := st.nextId + 1 })

/-- Step 3 of `UserHandler.CheckIn`: the insert and the 200 response. -/
def checkInInsert (st : AttState) (uid now : Nat) (notes : Option String) :
    Response × AttState :=
  let (attendanceID, st2) := createCheckIn st uid now notes
  (okResp "Check-in successful" attendanceID, st2)

/-- Steps 2 and 3 of `UserHandler.CheckIn`: the schedule lookup — the
handler returns 403 `"No schedule found for today"` only on
`pgx.ErrNoRows` from the repository and continues on any other error —
followed by the insert. -/
def checkInSchedule (st : AttState) (uid now : Nat) (notes : Option String) :
    Response × AttState :=
  let today := now / secPerDay
  match getScheduleByUserAndDate st.schedules uid today with
  | Except.error RepoErr.noRows =>
    (forbiddenResp "No schedule found for today", st)
  | Except.error (RepoErr.other _) =>
    -- the handler only logs other schedule errors and continues
    checkInInsert st uid now notes
  | Except.ok _ => checkInInsert st uid now notes

/-- Handler `UserHandler.CheckIn` (part_005 lines 38-102): reject with 409 when the
most recent record is still open, otherwise run the schedule lookup and
the insert. -/
def checkIn (st : AttState) (uid now : Nat) (notes : Option String) :
    Response × AttState :=
  let lastAtt := getLastAttendance st.attendances uid
  match lastAtt with
  | some a =>
    if a.checkOutAt.isNone then
      (conflictResp "User already checked in", st)
    else checkInSchedule st uid now notes
  | none => checkInSchedule st uid now notes

/-- The effect of `UPDATE attendances SET check_out_at = $1, notes =
COALESCE($2, notes) WHERE id = $3 AND check_out_at IS NULL` on one row:
the row is written only when its id matches and its `check_out_at` is
still NULL; `COALESCE` keeps the stored notes when the new notes are
absent.  The boolean reports whether the row was affected. -/
def updateCheckOutRow (a : Attendance) (attId now : Nat) (notes : Option String) :
    Attendance × Bool :=
  if a.id == attId && a.checkOutAt.isNone then
    ({ a with checkOutAt := some now, notes := notes.orElse (fun _ => a.notes) }, true)
  else (a, false)

/-- The error message `attendanceRepo.UpdateCheckOut` builds when the
conditional update affected zero rows. -/
def updateCheckOutZeroRowsMsg (attId : Nat) : String :=
  "attendance record " ++ toString attId ++ " not found or already checked out"

/-- Go `attendanceRepo.UpdateCheckOut` (attendance_repo.go lines 68-84): run the
conditional update over the table; when `RowsAffected() == 0` return the
"not found or already checked out" error. -/
def updateCheckOut (db : List Attendance) (attId now : Nat) (notes : Option String) :
    List Attendance × Except String Unit :=
  let db2 := db.map (fun a => (updateCheckOutRow a attId now notes).1)
  let affected := (db.filter (fun a => a.id == attId && a.checkOutAt.isNone)).length
  if affected == 0 then (db2, Except.error (updateCheckOutZeroRowsMsg attId))
  else (db2, Except.ok ())

/-- Handler `UserHandler.CheckOut` (part_005 lines 104-168) with the read and the
write taken against two snapshots of the table, so that a concurrent
writer between the `GetLastAttendance` read (`dbRead`) and the
`UpdateCheckOut` write (`dbWrite`) can be expressed.  The sequential
handler is `checkOut`, where both snapshots coincide. -/
def checkOutWith (dbRead dbWrite : List Attendance) (uid now : Nat)
    (notes : Option String) : Response × List Attendance :=
  match getLastAttendance dbRead uid with
  | none =>
    (notFoundResp "No active check-in found to check out from", dbWrite)
  | some lastAtt =>
    if lastAtt.checkOutAt.isSome then
      (conflictResp "User has already checked out for the last session", dbWrite)
    else
      let (db2, r) := updateCheckOut dbWrite lastAtt.id now notes
      match r with
      | Except.error msg =>
        -- the handler compares the error text against the repository's
        -- zero-rows message and maps that case to 404
        if msg == updateCheckOutZeroRowsMsg lastAtt.id then
          (notFoundResp msg, db2)
        else (serverErrorResp "Failed to record check-out", db2)
      | Except.ok _ => (okResp "Check-out successful" lastAtt.id, db2)

/-- Handler `UserHandler.CheckOut` run without interference: read and write see the
same table. -/
def checkOut (db : List Attendance) (uid now : Nat) (notes : Option String) :
    Response × List Attendance :=
  checkOutWith db db uid now notes

/-- An attendance row is open while its `check_out_at` is NULL. -/
def isOpen (a : Attendance) : Bool := a.checkOutAt.isNone

/-- The open rows of one user. -/
def openFor (db : List Attendance) (uid : Nat) : List Attendance :=
  db.filter (fun a => a.userId == uid && isOpen a)

/-- All rows of one user. -/
def recordsFor (db : List Attendance) (uid : Nat) : List Attendance :=
  db.filter (fun a => a.userId == uid)

/-- Table invariant: distinct rows carry distinct ids (the `SERIAL`
primary key). -/
def IdsDistinct (db : List Attendance) : Prop :=
  db.Pairwise (fun a b => a.id ≠ b.id)

/-- Table invariant: an open row is strictly the most recent row of its
user, so `ORDER BY check_in_at DESC LIMIT 1` finds it. -/
def OpenLatest (db : List Attendance) : Prop :=
  ∀ a ∈ db, isOpen a = true →
    ∀ b ∈ db, b.userId = a.userId → b.id ≠ a.id → b.checkInAt < a.checkInAt

/-- The well-formedness invariant of the `attendances` table. -/
def DbWf (db : List Attendance) : Prop := IdsDistinct db ∧ OpenLatest db

instance (db : List Attendance) : Decidable (IdsDistinct db) := by
  unfold IdsDistinct; infer_instance

instance (db : List Attendance) : Decidable (OpenLatest db) := by
  unfold OpenLatest; infer_instance

instance (db : List Attendance) : Decidable (DbWf db) := by
  unfold DbWf; infer_instance

/-- Well-formedness of the whole handler state: the table invariant plus
freshness of the next `SERIAL` id. -/
def StWf (st : AttState) : Prop :=
  DbWf st.attendances ∧ ∀ a ∈ st.attendances, a.id < st.nextId

instance (st : AttState) : Decidable (StWf st) := by
  unfold StWf; infer_instance

/-- Recognises the 403 `"No schedule found for today"` response of the
`CheckIn` rejection branch. -/
def respIsNoSchedule (r : Response) : Bool :=
  r.status == 403 && r.message == "No schedule found for today"

/-! ## Pagination (internal/utils/pagination.go) -/

def defaultPage : Int := 1

def defaultLimit : Int := 10

def maxLimit : Int := 100

/-- Go `utils.PaginationQuery`. -/
structure PaginationQuery where
  page : Int
  limit : Int
  offset : Int
deriving DecidableEq, Repr

/-- Go `utils.ParsePaginationParams`: the `page` and `limit` query
parameters arrive as `strconv.Atoi(c.Query(name, default))` results —
outer `none` = parameter missing, inner `none` = unparsable text; missing or unparsable or below-1 values
fall back to the defaults (`page=1`, `limit=10`); a limit above 100 is
capped to 100; `offset = (page-1)*limit`. -/
def parsePaginationParams (pageQ limitQ : Option (Option Int)) : PaginationQuery :=
  let pageParsed : Option Int :=
    match pageQ with
    | none => some defaultPage
    | some r => r
  let page : Int :=
    match pageParsed with
    | none => defaultPage
    | some p => if p < 1 then defaultPage else p
  let limitParsed : Option Int :=
    match limitQ with
    | none => some defaultLimit
    | some r => r
  let limit0 : Int :=
    match limitParsed with
    | none => defaultLimit
    | some l => if l < 1 then defaultLimit else l
  let limit : Int := if limit0 > maxLimit then maxLimit else limit0
  { page := page, limit := limit, offset := (page - 1) * limit }

/-- The SQL filter shared by the count query and the data query of
`GetAttendancesByUser`: `user_id = $1 AND check_in_at >= $2 AND
check_in_at <= $3`. -/
def attInRange (uid s e : Nat) (a : Attendance) : Bool :=
  a.userId == uid && decide (s ≤ a.checkInAt) && decide (a.checkInAt ≤ e)

/-- The filter of `GetAllAttendances` (admin report): `check_in_at >= $1
AND check_in_at <= $2`, unscoped by user. -/
def attInRangeAll (s e : Nat) (a : Attendance) : Bool :=
  decide (s ≤ a.checkInAt) && decide (a.checkInAt ≤ e)

/-- Insertion step of `ORDER BY check_in_at DESC`. -/
def insertDesc (a : Attendance) : List Attendance → List Attendance
  | [] => [a]
  | b :: rest =>
    if b.checkInAt > a.checkInAt then b :: insertDesc a rest else a :: b :: rest

/-- The SQL `ORDER BY check_in_at DESC` over the filtered rows. -/
def sortByCheckInDesc : List Attendance → List Attendance
  | [] => []
  | a :: rest => insertDesc a (sortByCheckInDesc rest)

/-- Go `attendanceRepo.GetAttendancesByUser` (attendance_repo.go lines 87-151):
count with the filter, short-circuit on zero, then select the same filter
ordered by `check_in_at DESC` with `LIMIT $4 OFFSET $5`,
`offset = (page-1)*limit` clamped at zero. -/
def getAttendancesByUser (db : List Attendance) (uid s e : Nat)
    (page limit : Int) : List Attendance × Nat :=
  let totalCount := (db.filter (attInRange uid s e)).length
  if totalCount == 0 then ([], 0)
  else
    let offset0 := (page - 1) * limit
    let offset := if offset0 < 0 then 0 else offset0
    let rows :=
      ((sortByCheckInDesc (db.filter (attInRange uid s e))).drop offset.toNat).take
        limit.toNat
    (rows, totalCount)

/-- Go `attendanceRepo.GetAllAttendances` (admin report, lines 155-217): same
shape, unscoped by user.  The user join only enriches rows and is not
modelled. -/
def getAllAttendances (db : List Attendance) (s e : Nat)
    (page limit : Int) : List Attendance × Nat :=
  let totalCount := (db.filter (attInRangeAll s e)).length
  if totalCount == 0 then ([], 0)
  else
    let offset0 := (page - 1) * limit
    let offset := if offset0 < 0 then 0 else offset0
    let rows :=
      ((sortByCheckInDesc (db.filter (attInRangeAll s e))).drop offset.toNat).take
        limit.toNat
    (rows, totalCount)

/-! ## Credential & Token Service (internal/utils JWT helpers) -/

/-- Go `utils.JwtClaims`: user id, username, role, plus the registered claims
`GenerateJWT` fills (`exp`, `iat`, `nbf` as unix seconds, issuer). -/
structure JwtClaims where
  userID : Nat
  username : String
  role : String
  exp : Nat
  iat : Nat
  nbf : Nat
  issuer : String
deriving DecidableEq, Repr

/-- Signing algorithms that can appear in a token header. -/
inductive JwtAlg where
  | hs256
  | hs384
  | hs512
  | rs256
  | es256
deriving DecidableEq, Repr

/-- The `token.Method.(*jwt.SigningMethodHMAC)` type assertion of the
keyfunc in `ValidateJWT`. -/
def JwtAlg.isHMAC : JwtAlg → Bool
  | .hs256 => true
  | .hs384 => true
  | .hs512 => true
  | .rs256 => false
  | .es256 => false

/-- Symbolic signature values: HMAC is treated as a perfect MAC, so a
valid signature is the formal application of the MAC to the key, the
algorithm and the signed claims; `raw` stands for any other byte string an
attacker may place in the signature field. -/
inductive SigVal where
  | hmac (secret : String) (alg : JwtAlg) (claims : JwtClaims)
  | raw (bits : Nat)
deriving DecidableEq, Repr

/-- A serialized JWT: header algorithm, claims payload, signature. -/
structure SignedToken where
  alg : JwtAlg
  claims : JwtClaims
  sig : SigVal
deriving DecidableEq, Repr

/-- Go `utils.GenerateJWT`: HS256 token carrying user id, username and role,
expiring 72 hours after issuance (`time.Hour * 72`), `iat = nbf = now`,
issuer `"absensi-app"`, signed with the process-wide secret. -/
def generateJWT (secret : String) (now : Nat) (userID : Nat)
    (username role : String) : SignedToken :=
  let claims : JwtClaims :=
    { userID := userID, username := username, role := role
      exp := now + 72 * 3600, iat := now, nbf := now, issuer := "absensi-app" }
  { alg := JwtAlg.hs256, claims := claims, sig := SigVal.hmac secret JwtAlg.hs256 claims }

inductive JwtError where
  | badAlgorithm
  | badSignature
  | expired
  | notYetValid
deriving DecidableEq, Repr

/-- Go `utils.ValidateJWT`: the keyfunc rejects non-HMAC algorithms; parsing
verifies the signature against the process secret and validates the
registered claims (`jwt/v5` accepts only `now < exp` and `nbf ≤ now`). -/
def validateJWT (secret : String) (now : Nat) (tok : SignedToken) :
    Except JwtError JwtClaims :=
  if tok.alg.isHMAC = false then Except.error JwtError.badAlgorithm
  else if tok.sig ≠ SigVal.hmac secret tok.alg tok.claims then
    Except.error JwtError.badSignature
  else if tok.claims.exp ≤ now then Except.error JwtError.expired
  else if now < tok.claims.nbf then Except.error JwtError.notYetValid
  else Except.ok tok.claims

/-! ## Authorization middleware (internal/middleware/auth.go) -/

/-- Character-wise simple case folding, modelling Go `strings.EqualFold`. -/
def eqFoldChars : List Char → List Char → Bool
  | [], [] => true
  | a :: as, b :: bs => (a.toLower == b.toLower) && eqFoldChars as bs
  | _, _ => false

/-- Go `strings.EqualFold` over the two strings' characters. -/
def equalFold (s t : String) : Bool := eqFoldChars s.data t.data

/-- What a middleware does with a request: pass it on (with the `c.Locals`
user entry it sees) or halt with a response. -/
inductive MwResult where
  | next (ctxUser : Option JwtClaims)
  | halt (resp : Response)
deriving DecidableEq, Repr

def MwResult.isNext : MwResult → Bool
  | .next _ => true
  | .halt _ => false

/-- Go `middleware.Authorize(allowedRoles...)`: 403 when no validated claims
are in the request context; otherwise scan the allowed roles with
`strings.EqualFold` and 403 unless one matches. -/
def authorizeMiddleware (allowedRoles : List String)
    (ctxUser : Option JwtClaims) : MwResult :=
  match ctxUser with
  | none => MwResult.halt (forbiddenResp "Forbidden: Cannot determine user role")
  | some claims =>
    let isAllowed := allowedRoles.any (fun role => equalFold claims.role role)
    if isAllowed then MwResult.next (some claims)
    else MwResult.halt (forbiddenResp "Forbidden: Insufficient privileges")

/-- Spec-side reading of the Authorization Gate's acceptance condition:
the claims' role string equals one of the acceptable role names under
case-insensitive comparison. -/
def roleMatchesSpec (role : String) (roles : List String) : Prop :=
  ∃ r ∈ roles, role.data.map Char.toLower = r.data.map Char.toLower

/-- A request as the auth middleware sees it: the bearer token of the
`Authorization` header, `none` when the header is missing or not of the
`Bearer <token>` shape (`utils.ExtractToken` then returns `""`). -/
structure Request where
  bearer : Option SignedToken
deriving DecidableEq, Repr

/-- Go `middleware.Protected()`: 401 on a missing token, 401 on failed
validation, otherwise store the claims under `c.Locals("user")` and
continue. -/
def protectedMiddleware (secret : String) (now : Nat) (req : Request) : MwResult :=
  match req.bearer with
  | none => MwResult.halt (unauthorizedResp "Unauthorized: Missing token")
  | some tok =>
    match validateJWT secret now tok with
    | Except.error _ => MwResult.halt (unauthorizedResp "Unauthorized: Invalid token")
    | Except.ok claims => MwResult.next (some claims)

/-- The middleware chain of the `/api/v1/admin` group (routes.go line 30):
`Protected()` then `Authorize("Admin")`. -/
def adminGroupGate (secret : String) (now : Nat) (req : Request) : MwResult :=
  match protectedMiddleware secret now req with
  | MwResult.halt r => MwResult.halt r
  | MwResult.next ctx => authorizeMiddleware ["Admin"] ctx

/-- The middleware chain of the `/api/v1/user` group (routes.go line 73),
which serves POST `/user/attendance/checkin` and `/checkout`: only
`Protected()` — the `Authorize` middleware was removed from this group, so
no role check runs before the attendance handlers. -/
def userGroupGate (secret : String) (now : Nat) (req : Request) : MwResult :=
  protectedMiddleware secret now req

/-! ## Schedule creation (part_002 and AdminHandler.CreateSchedule) -/

/-- Whether the haystack starts with the needle `n`, character-wise. -/
def strStartsWith : List Char → List Char → Bool
  | [], _ => true
  | _ :: _, [] => false
  | a :: as, b :: bs => a == b && strStartsWith as bs

/-- Whether the needle `n` occurs somewhere inside the haystack,
character-wise. -/
def strContainsChars (n : List Char) : List Char → Bool
  | [] => strStartsWith n []
  | b :: bs => strStartsWith n (b :: bs) || strContainsChars n bs

/-- Go `strings.Contains(s, sub)`. -/
def containsSubstr (s sub : String) : Bool := strContainsChars sub.data s.data

/-- The input of `CreateSchedule` (`models.UserSchedule` body): user id,
shift id and the `date` string.  `dateVal` is the result of
`time.Parse("2006-01-02", dateStr)` — the standard-library parse is
treated as a black box and modelled by its outcome, `none` when parsing
fails, `some d` (a calendar-day index) when it succeeds. -/
structure SchedInput where
  userId : Nat
  shiftId : Nat
  dateStr : String
  dateVal : Option Nat
deriving DecidableEq, Repr

/-- The tables schedule creation touches: existing users and shifts (for
the foreign keys) and the `user_schedules` table with its next id. -/
structure SchedDB where
  users : List Nat
  shifts : List Nat
  schedules : List UserSchedule
  nextId : Nat
deriving DecidableEq, Repr

/-- The failures `scheduleRepo.CreateSchedule` distinguishes. -/
inductive SchedErr where
  | invalidDateFormat
  | duplicateDate (userId : Nat) (dateStr : String)
  | invalidRef (userId shiftId : Nat)
deriving DecidableEq, Repr

/-- The Go error strings `CreateSchedule` builds with `fmt.Errorf`. -/
def SchedErr.message : SchedErr → String
  | .invalidDateFormat => "invalid date format for schedule, use YYYY-MM-DD"
  | .duplicateDate uid ds =>
    "user " ++ toString uid ++ " already has a schedule on " ++ ds
  | .invalidRef uid sid =>
    "invalid user_id (" ++ toString uid ++ ") or shift_id (" ++ toString sid ++ ")"

/-- Go `scheduleRepo.CreateSchedule` (part_002 lines 26-56): parse the date,
run the INSERT; a violation of the `UNIQUE (user_id, date)` index
(pg error code 23505) and a foreign-key violation (23503) are
distinguished by the constraint kind; the uniqueness index is hit first
on insert. -/
def createScheduleRepo (db : SchedDB) (inp : SchedInput) :
    Except SchedErr Nat × SchedDB :=
  match inp.dateVal with
  | none => (Except.error SchedErr.invalidDateFormat, db)
  | some d =>
    if db.schedules.any (fun s => s.userId == inp.userId && s.date == d) then
      (Except.error (SchedErr.duplicateDate inp.userId inp.dateStr), db)
    else if (db.users.contains inp.userId && db.shifts.contains inp.shiftId) = false then
      (Except.error (SchedErr.invalidRef inp.userId inp.shiftId), db)
    else
      (Except.ok db.nextId,
        { db with
          schedules :=
            db.schedules ++ [UserSchedule.mk db.nextId inp.userId inp.shiftId d]
          nextId := db.nextId + 1 })

/-- Handler `AdminHandler.CreateSchedule` (part_004 lines 353-414): map the
repository's error text by substring search — "already has a schedule on"
to 409, "invalid user_id"/"invalid shift_id" to 400, "invalid date format"
to 400, anything else to 500. -/
def createScheduleHandler (db : SchedDB) (inp : SchedInput) : Response × SchedDB :=
  match createScheduleRepo db inp with
  | (Except.ok newId, db2) =>
    (createdResp "Schedule created successfully" newId, db2)
  | (Except.error e, db2) =>
    let msg := e.message
    if containsSubstr msg "already has a schedule on" then (conflictResp msg, db2)
    else if containsSubstr msg "invalid user_id" || containsSubstr msg "invalid shift_id" then
      (badRequestResp msg, db2)
    else if containsSubstr msg "invalid date format" then
      (badRequestResp "Invalid date format, use YYYY-MM-DD", db2)
    else (serverErrorResp "Failed to create schedule", db2)

/-! ## Date-range defaults (GetMyAttendance vs the admin report) -/

/-- A Go `time.Time` restricted to its calendar fields, as the handlers
build them with `time.Date(year, month, day, hour, min, sec, nsec, loc)`
in the one local location. -/
structure GoTime where
  year : Nat
  month : Nat
  day : Nat
  hour : Nat
  minute : Nat
  second : Nat
  nanosecond : Nat
deriving DecidableEq, Repr

/-- Chronological comparison key: lexicographic in the calendar fields
(faithful for the in-range field values the handlers construct). -/
def GoTime.key (t : GoTime) : Nat :=
  (((((t.year * 13 + t.month) * 32 + t.day) * 24 + t.hour) * 60 + t.minute) * 60
      + t.second) * 1000000000 + t.nanosecond

/-- Go `time.Date(y, mo, d, h, mi, s, ns, loc)` for in-range fields. -/
def timeDate (y mo d h mi s ns : Nat) : GoTime := ⟨y, mo, d, h, mi, s, ns⟩

/-- The default `end_date` of `GetMyAttendance` (part_005 line 182):
`time.Date(now.Year(), now.Month(), now.Day(), 0, 0, 0, 0, loc)` — the
start of the current day, despite the variable being named `todayEnd`. -/
def myAttendanceDefaultEnd (now : GoTime) : GoTime :=
  timeDate now.year now.month now.day 0 0 0 0

/-- The default end bound of `parseAdminDateQueryParams` (part_004 line
52): `time.Date(now.Year(), now.Month(), now.Day(), 23, 59, 59,
999999999, loc)` — the end of the current day. -/
def adminDefaultEnd (now : GoTime) : GoTime :=
  timeDate now.year now.month now.day 23 59 59 999999999

/-- Helper `parseDateQueryParam` (part_004 lines 689-705): missing or unparsable
parameters yield the supplied default; a parsed date is truncated to the
start of its day. -/
def parseDateQueryParam (q : Option (Option GoTime)) (dflt : GoTime) : GoTime :=
  match q with
  | none => dflt
  | some none => dflt
  | some (some t) => timeDate t.year t.month t.day 0 0 0 0

/-- The `end_date` bound `GetMyAttendance` passes to the repository. -/
def myAttendanceEndDate (now : GoTime) (endQ : Option (Option GoTime)) : GoTime :=
  parseDateQueryParam endQ (myAttendanceDefaultEnd now)

/-- The `end_date` bound `parseAdminDateQueryParams` produces for the
admin report: missing or unparsable text falls back to the end of today;
parsed dates are extended to the end of their day. -/
def adminEndDate (now : GoTime) (endQ : Option (Option GoTime)) : GoTime :=
  match endQ with
  | none => adminDefaultEnd now
  | some none => adminDefaultEnd now
  | some (some t) => timeDate t.year t.month t.day 23 59 59 999999999

/-- The SQL filter `check_in_at >= $1 AND check_in_at <= $2` over calendar
timestamps. -/
def checkInWithin (checkInAt s e : GoTime) : Bool :=
  decide (s.key ≤ checkInAt.key) && decide (checkInAt.key ≤ e.key)

theorem lastOf_eq_none {l : List Attendance} : lastOf l = none ↔ l = [] := by
  cases l with
  | nil => simp [lastOf]
  | cons a rest =>
    simp only [lastOf]
    cases h : lastOf rest with
    | none => simp
    | some b =>
      by_cases hb : b.checkInAt > a.checkInAt <;> simp [hb]

theorem lastOf_mem : ∀ {l : List Attendance} {a : Attendance},
    lastOf l = some a → a ∈ l := by
  intro l
  induction l with
  | nil => intro a h; simp [lastOf] at h
  | cons x rest ih =>
    intro a h
    simp only [lastOf] at h
    cases hr : lastOf rest with
    | none =>
      rw [hr] at h
      simp at h
      simp [h]
    | some b =>
      rw [hr] at h
      by_cases hb : b.checkInAt > x.checkInAt
      · simp [hb] at h
        subst h
        exact List.mem_cons_of_mem x (ih hr)
      · simp [hb] at h
        simp [h]

theorem lastOf_ge : ∀ {l : List Attendance} {a : Attendance},
    lastOf l = some a → ∀ b ∈ l, b.checkInAt ≤ a.checkInAt := by
  intro l
  induction l with
  | nil => intro a h; simp [lastOf] at h
  | cons x rest ih =>
    intro a h
    simp only [lastOf] at h
    cases hr : lastOf rest with
    | none =>
      rw [hr] at h
      simp at h
      subst h
      rw [lastOf_eq_none] at hr
      subst hr
      simp
    | some b =>
      rw [hr] at h
      intro c hc
      rcases List.mem_cons.mp hc with hcx | hcrest
      · subst hcx
        by_cases hb : b.checkInAt > c.checkInAt
        · simp [hb] at h
          subst h
          omega
        · simp [hb] at h
          subst h
          omega
      · have hcb := ih hr c hcrest
        by_cases hb : b.checkInAt > x.checkInAt
        · simp [hb] at h
          subst h
          omega
        · simp [hb] at h
          subst h
          omega

/-- Distinct ids make rows with equal ids equal. -/
theorem ids_inj {db : List Attendance} (h : IdsDistinct db) {a b : Attendance}
    (ha : a ∈ db) (hb : b ∈ db) (hid : a.id = b.id) : a = b := by
  by_contra hne
  have hsym : Symmetric (fun x y : Attendance => x.id ≠ y.id) := by
    intro x y hxy e
    exact hxy e.symm
  exact List.Pairwise.forall hsym h ha hb hne hid

theorem getLastAttendance_eq_none_iff {db : List Attendance} {uid : Nat} :
    getLastAttendance db uid = none ↔ recordsFor db uid = [] := by
  unfold getLastAttendance recordsFor
  exact lastOf_eq_none

/-- Under the table invariant, an open row of a user is what
`GetLastAttendance` returns for that user. -/
theorem getLastAttendance_open {db : List Attendance} {uid : Nat}
    {a : Attendance} (hwf : DbWf db) (ha : a ∈ db) (hu : a.userId = uid)
    (hopen : isOpen a = true) : getLastAttendance db uid = some a := by
  have hmem : a ∈ db.filter (fun x => x.userId == uid) := by
    rw [List.mem_filter]
    exact ⟨ha, by simp [hu]⟩
  obtain ⟨m, hm⟩ : ∃ m, lastOf (db.filter (fun x => x.userId == uid)) = some m := by
    cases h : lastOf (db.filter (fun x => x.userId == uid)) with
    | none =>
      rw [lastOf_eq_none] at h
      rw [h] at hmem
      simp at hmem
    | some m => exact ⟨m, rfl⟩
  have hmmem := lastOf_mem hm
  have hmdb : m ∈ db := (List.mem_filter.mp hmmem).1
  have hmuid : m.userId = uid := by
    have h2 := (List.mem_filter.mp hmmem).2
    simpa using h2
  have hge := lastOf_ge hm a hmem
  by_cases hid : m.id = a.id
  · have heq : m = a := ids_inj hwf.1 hmdb ha hid
    rw [getLastAttendance, hm, heq]
  · exfalso
    have hlt := hwf.2 a ha hopen m hmdb (by rw [hmuid, hu]) hid
    omega

/-- When the user has no open row, what `GetLastAttendance` returns (if
anything) is closed. -/
theorem getLastAttendance_closed {db : List Attendance} {uid : Nat}
    {m : Attendance} (hopen : openFor db uid = [])
    (hm : getLastAttendance db uid = some m) : isOpen m = false := by
  have hmmem := lastOf_mem hm
  have hmdb : m ∈ db := (List.mem_filter.mp hmmem).1
  have hmuid : m.userId = uid := by
    have h2 := (List.mem_filter.mp hmmem).2
    simpa using h2
  by_contra hne
  have hopen' : isOpen m = true := by
    cases h : isOpen m
    · exact absurd h hne
    · rfl
  have : m ∈ openFor db uid := by
    rw [openFor, List.mem_filter]
    exact ⟨hmdb, by simp [hmuid, hopen']⟩
  rw [hopen] at this
  simp at this

/-- The schedule lookup never reports an error: "not found" is `.ok none`,
mirroring `return nil, nil` in the Go repository. -/
theorem getScheduleByUserAndDate_ok (schedules : List UserSchedule) (uid day : Nat) :
    getScheduleByUserAndDate schedules uid day
      = Except.ok (schedules.find? (fun s => s.userId == uid && s.date == day)) := by
  unfold getScheduleByUserAndDate
  cases schedules.find? (fun s => s.userId == uid && s.date == day) <;> rfl

/-- The schedule lookup inside `CheckIn` always falls through to the
insert: the repository never produces the `pgx.ErrNoRows` error the
handler's rejection branch waits for. -/
theorem checkInSchedule_eq_insert (st : AttState) (uid now : Nat)
    (notes : Option String) :
    checkInSchedule st uid now notes = checkInInsert st uid now notes := by
  simp only [checkInSchedule, getScheduleByUserAndDate_ok]

theorem updateCheckOutRow_id (b : Attendance) (i t : Nat) (n : Option String) :
    (updateCheckOutRow b i t n).1.id = b.id := by
  unfold updateCheckOutRow
  split <;> rfl

theorem updateCheckOutRow_userId (b : Attendance) (i t : Nat) (n : Option String) :
    (updateCheckOutRow b i t n).1.userId = b.userId := by
  unfold updateCheckOutRow
  split <;> rfl

theorem updateCheckOutRow_checkInAt (b : Attendance) (i t : Nat) (n : Option String) :
    (updateCheckOutRow b i t n).1.checkInAt = b.checkInAt := by
  unfold updateCheckOutRow
  split <;> rfl

/-- The conditional `WHERE ... check_out_at IS NULL` clause: a row that is
already closed at write time is not touched. -/
theorem updateCheckOutRow_closed (b : Attendance) (i t : Nat) (n : Option String)
    (h : b.checkOutAt ≠ none) : (updateCheckOutRow b i t n).1 = b := by
  unfold updateCheckOutRow
  have : b.checkOutAt.isNone = false := by
    cases hb : b.checkOutAt
    · exact absurd hb h
    · rfl
  simp [this]

/-- A row not matching the `WHERE id = $3` clause is not touched. -/
theorem updateCheckOutRow_other (b : Attendance) (i t : Nat) (n : Option String)
    (h : b.id ≠ i) : (updateCheckOutRow b i t n).1 = b := by
  unfold updateCheckOutRow
  have : (b.id == i) = false := by simp [h]
  simp [this]

theorem updateCheckOutRow_open_of_open (b : Attendance) (i t : Nat)
    (n : Option String) (h : isOpen (updateCheckOutRow b i t n).1 = true) :
    isOpen b = true := by
  unfold updateCheckOutRow at h
  by_cases hc : (b.id == i && b.checkOutAt.isNone) = true
  · rw [if_pos hc] at h
    simp [isOpen] at h
  · rw [if_neg hc] at h
    exact h

/-- The conditional update preserves the table invariant. -/
theorem dbwf_updateCheckOut_map (db : List Attendance) (i t : Nat)
    (n : Option String) (hwf : DbWf db) :
    DbWf (db.map (fun a => (updateCheckOutRow a i t n).1)) := by
  constructor
  · rw [IdsDistinct, List.pairwise_map]
    apply List.Pairwise.imp _ hwf.1
    intro a b hab
    rw [updateCheckOutRow_id, updateCheckOutRow_id]
    exact hab
  · intro x hx hxopen y hy hyu hyid
    obtain ⟨a, ha, rfl⟩ := List.mem_map.mp hx
    obtain ⟨b, hb, rfl⟩ := List.mem_map.mp hy
    rw [updateCheckOutRow_checkInAt, updateCheckOutRow_checkInAt]
    apply hwf.2 a ha (updateCheckOutRow_open_of_open a i t n hxopen) b hb
    · rw [updateCheckOutRow_userId, updateCheckOutRow_userId] at hyu
      exact hyu
    · rw [updateCheckOutRow_id, updateCheckOutRow_id] at hyid
      exact hyid

/-- The resulting table of `UpdateCheckOut` is the row-wise conditional
update, whatever the call reports. -/
theorem updateCheckOut_fst (db : List Attendance) (i t : Nat) (n : Option String) :
    (updateCheckOut db i t n).1
      = db.map (fun a => (updateCheckOutRow a i t n).1) := by
  simp only [updateCheckOut]
  split <;> rfl

/-- Repository `UpdateCheckOut` preserves the table invariant whatever it
reports. -/
theorem dbwf_updateCheckOut (db : List Attendance) (i t : Nat)
    (n : Option String) (hwf : DbWf db) : DbWf (updateCheckOut db i t n).1 := by
  rw [updateCheckOut_fst]
  exact dbwf_updateCheckOut_map db i t n hwf

/-- The check-out handler preserves the table invariant on every path. -/
theorem dbwf_checkOut (db : List Attendance) (uid now : Nat)
    (notes : Option String) (hwf : DbWf db) :
    DbWf (checkOut db uid now notes).2 := by
  unfold checkOut checkOutWith
  cases hlast : getLastAttendance db uid with
  | none => exact hwf
  | some lastAtt =>
    dsimp only
    by_cases hco : lastAtt.checkOutAt.isSome = true
    · rw [if_pos hco]
      exact hwf
    · rw [if_neg hco]
      rcases hu : updateCheckOut db lastAtt.id now notes with ⟨db2, r⟩
      have h2 : DbWf db2 := by
        have h3 := dbwf_updateCheckOut db lastAtt.id now notes hwf
        rw [hu] at h3
        exact h3
      simp only [hu]
      cases r with
      | error msg =>
        dsimp only
        split <;> exact h2
      | ok u => exact h2

/-- Under the invariant every user has at most one open row. -/
theorem openFor_length_le_one {db : List Attendance} (hwf : DbWf db) (uid : Nat) :
    (openFor db uid).length ≤ 1 := by
  cases hl : openFor db uid with
  | nil => simp
  | cons a rest =>
    cases hr : rest with
    | nil => simp
    | cons b rest2 =>
      exfalso
      have ha : a ∈ openFor db uid := by rw [hl]; simp
      have hb : b ∈ openFor db uid := by rw [hl, hr]; simp
      have haf := List.mem_filter.mp ha
      have hbf := List.mem_filter.mp hb
      have hau : a.userId = uid := by
        have h2 := haf.2
        rw [Bool.and_eq_true] at h2
        simpa using h2.1
      have hbu : b.userId = uid := by
        have h2 := hbf.2
        rw [Bool.and_eq_true] at h2
        simpa using h2.1
      have hao : isOpen a = true := by
        have h2 := haf.2
        rw [Bool.and_eq_true] at h2
        exact h2.2
      have hbo : isOpen b = true := by
        have h2 := hbf.2
        rw [Bool.and_eq_true] at h2
        exact h2.2
      have hneq : a.id ≠ b.id := by
        have hp : (openFor db uid).Pairwise (fun x y => x.id ≠ y.id) :=
          List.Pairwise.sublist (List.filter_sublist db) hwf.1
        rw [hl, hr] at hp
        exact (List.pairwise_cons.mp hp).1 b (by simp)
      have h1 := hwf.2 a haf.1 hao b hbf.1 (hbu.trans hau.symm) (fun e => hneq e.symm)
      have h2 := hwf.2 b hbf.1 hbo a haf.1 (hau.trans hbu.symm) hneq
      omega

/-- A successful check-in appends exactly one fresh open row and keeps the
state well-formed. -/
theorem stwf_insert (st : AttState) (uid now : Nat) (notes : Option String)
    (hwf : StWf st) (hopen : openFor st.attendances uid = [])
    (hnow : ∀ a ∈ st.attendances, a.userId = uid → a.checkInAt < now) :
    StWf (AttState.mk (st.attendances ++ [Attendance.mk st.nextId uid now none notes])
      st.schedules (st.nextId + 1)) := by
  obtain ⟨⟨hids, hlatest⟩, hbound⟩ := hwf
  have hclosed : ∀ a ∈ st.attendances, a.userId = uid → isOpen a = false := by
    intro a ha hu
    cases hio : isOpen a
    · rfl
    · exfalso
      have : a ∈ openFor st.attendances uid :=
        List.mem_filter.mpr ⟨ha, by simp [hu, hio]⟩
      rw [hopen] at this
      simp at this
  refine ⟨⟨?_, ?_⟩, ?_⟩
  · rw [IdsDistinct, List.pairwise_append]
    refine ⟨hids, List.pairwise_singleton _ _, ?_⟩
    intro a ha b hb
    have hbd : b = Attendance.mk st.nextId uid now none notes := by simpa using hb
    subst hbd
    have := hbound a ha
    simp only []
    omega
  · intro a ha haopen b hb hbu hbid
    rcases List.mem_append.mp ha with hadb | harec
    · rcases List.mem_append.mp hb with hbdb | hbrec
      · exact hlatest a hadb haopen b hbdb hbu hbid
      · exfalso
        have hbd : b = Attendance.mk st.nextId uid now none notes := by simpa using hbrec
        subst hbd
        have hau : a.userId = uid := hbu.symm
        have := hclosed a hadb hau
        rw [haopen] at this
        cases this
    · have had : a = Attendance.mk st.nextId uid now none notes := by simpa using harec
      subst had
      rcases List.mem_append.mp hb with hbdb | hbrec
      · exact hnow b hbdb hbu
      · exfalso
        have hbd : b = Attendance.mk st.nextId uid now none notes := by simpa using hbrec
        subst hbd
        exact hbid rfl
  · intro a ha
    rcases List.mem_append.mp ha with hadb | harec
    · have := hbound a hadb
      simp only []
      omega
    · have had : a = Attendance.mk st.nextId uid now none notes := by simpa using harec
      subst had
      simp only []
      omega

/-- With an open row present, `CheckIn` hits the conflict branch. -/
theorem checkIn_conflict {st : AttState} {uid : Nat} (now : Nat)
    (notes : Option String) (hwf : DbWf st.attendances) {a : Attendance}
    (ha : a ∈ st.attendances) (hu : a.userId = uid) (hao : isOpen a = true) :
    checkIn st uid now notes = (conflictResp "User already checked in", st) := by
  unfold checkIn
  rw [getLastAttendance_open hwf ha hu hao]
  dsimp only
  rw [if_pos]
  rw [isOpen] at hao
  exact hao

/-- With no open row for the user, `CheckIn` reaches the insert. -/
theorem checkIn_no_open {st : AttState} {uid : Nat} (now : Nat)
    (notes : Option String) (hopen : openFor st.attendances uid = []) :
    checkIn st uid now notes = checkInInsert st uid now notes := by
  unfold checkIn
  cases hlast : getLastAttendance st.attendances uid with
  | none =>
    dsimp only
    exact checkInSchedule_eq_insert st uid now notes
  | some a =>
    dsimp only
    have hclosed := getLastAttendance_closed hopen hlast
    rw [isOpen] at hclosed
    rw [if_neg]
    · exact checkInSchedule_eq_insert st uid now notes
    · rw [hclosed]
      exact Bool.false_ne_true

/-- C2.  For every user at most one attendance row is open at any time
(`openFor` has length at most one in every well-formed table); a check-in
while the user's open row exists answers with the 409 conflict and leaves
the state untouched; a check-in with no open row answers 200 and appends
exactly one new open row (the only open row of that user afterwards),
re-establishing the invariant; check-out also preserves the invariant.
Listing (`getAttendancesByUser` below) is a pure query and never changes
the table, so the invariant is trivially preserved by it. -/
theorem checkIn_single_open_invariant (st : AttState) (uid now : Nat)
    (notes : Option String) (hwf : StWf st)
    (hnow : ∀ a ∈ st.attendances, a.userId = uid → a.checkInAt < now) :
    (∀ db : List Attendance, DbWf db → ∀ u, (openFor db u).length ≤ 1) ∧
    (∀ a ∈ st.attendances, a.userId = uid → isOpen a = true →
       checkIn st uid now notes = (conflictResp "User already checked in", st)) ∧
    (openFor st.attendances uid = [] →
       (checkIn st uid now notes).1 = okResp "Check-in successful" st.nextId ∧
       (checkIn st uid now notes).2.attendances
         = st.attendances ++ [Attendance.mk st.nextId uid now none notes] ∧
       openFor (checkIn st uid now notes).2.attendances uid
         = [Attendance.mk st.nextId uid now none notes] ∧
       StWf (checkIn st uid now notes).2) ∧
    (∀ (db : List Attendance) (u t : Nat) (n : Option String),
       DbWf db → DbWf (checkOut db u t n).2) := by
  refine ⟨fun db hdb u => openFor_length_le_one hdb u, ?_, ?_, ?_⟩
  · intro a ha hu hao
    exact checkIn_conflict now notes hwf.1 ha hu hao
  · intro hopen
    rw [checkIn_no_open now notes hopen]
    have hst := stwf_insert st uid now notes hwf hopen hnow
    refine ⟨rfl, rfl, ?_, hst⟩
    show openFor (st.attendances ++ [Attendance.mk st.nextId uid now none notes]) uid
      = [Attendance.mk st.nextId uid now none notes]
    rw [openFor, List.filter_append]
    rw [openFor] at hopen
    rw [hopen]
    simp [isOpen]
  · intro db u t n hdb
    exact dbwf_checkOut db u t n hdb

/-- Witness for `checkIn_single_open_invariant`: a user whose only record
is closed checks in at a later time. -/
theorem checkIn_single_open_invariant_witness :
    StWf (AttState.mk [Attendance.mk 1 7 50 (some 60) none] [] 2) ∧
    (∀ a ∈ (AttState.mk [Attendance.mk 1 7 50 (some 60) none] [] 2).attendances,
        a.userId = 7 → a.checkInAt < 100) ∧
    ((checkIn (AttState.mk [Attendance.mk 1 7 50 (some 60) none] [] 2) 7 100 none).1
        = okResp "Check-in successful" 2) :=
  ⟨by decide, by decide,
    ((checkIn_single_open_invariant (AttState.mk [Attendance.mk 1 7 50 (some 60) none] [] 2)
        7 100 none (by decide) (by decide)).2.2.1 (by decide)).1⟩

/-- When some row matches `WHERE id = $3 AND check_out_at IS NULL`, the
update reports success. -/
theorem updateCheckOut_affected_ok {db : List Attendance} {i : Nat} (t : Nat)
    (n : Option String) {a : Attendance} (ha : a ∈ db) (hid : a.id = i)
    (hopen : a.checkOutAt.isNone = true) :
    (updateCheckOut db i t n).2 = Except.ok () := by
  have hmem : a ∈ db.filter (fun b => b.id == i && b.checkOutAt.isNone) :=
    List.mem_filter.mpr ⟨ha, by simp [hid, hopen]⟩
  have hlen : (db.filter (fun b => b.id == i && b.checkOutAt.isNone)).length ≠ 0 := by
    intro h
    rw [List.length_eq_zero] at h
    rw [h] at hmem
    simp at hmem
  simp only [updateCheckOut]
  rw [if_neg (by simpa using hlen)]

/-- When no row matches the conditional update, the table is unchanged and
the zero-rows error is reported. -/
theorem updateCheckOut_zero {db : List Attendance} {i : Nat} (t : Nat)
    (n : Option String) (h : ∀ b ∈ db, b.id = i → b.checkOutAt ≠ none) :
    updateCheckOut db i t n = (db, Except.error (updateCheckOutZeroRowsMsg i)) := by
  have hfil : db.filter (fun b => b.id == i && b.checkOutAt.isNone) = [] := by
    rw [List.filter_eq_nil_iff]
    intro b hb
    simp only [Bool.and_eq_true, beq_iff_eq, Option.isNone_iff_eq_none, not_and]
    intro hbid hbnone
    exact h b hb hbid hbnone
  have hmap : db.map (fun b => (updateCheckOutRow b i t n).1) = db := by
    have : ∀ b ∈ db, (updateCheckOutRow b i t n).1 = id b := by
      intro b hb
      by_cases hbid : b.id = i
      · exact updateCheckOutRow_closed b i t n (h b hb hbid)
      · exact updateCheckOutRow_other b i t n hbid
    rw [List.map_congr_left this, List.map_id]
  simp only [updateCheckOut, hfil, hmap, List.length_nil]
  rfl

/-- The successful conditional update closes exactly the matching open row
(`COALESCE` keeping the stored notes when none are supplied) and leaves
every other row untouched. -/
theorem updateCheckOut_success {db : List Attendance} {i : Nat} (t : Nat)
    (n : Option String) (hids : IdsDistinct db) {a : Attendance} (ha : a ∈ db)
    (hid : a.id = i) (hopen : isOpen a = true) :
    updateCheckOut db i t n
      = (db.map (fun b => if b.id = i then
           { b with checkOutAt := some t, notes := n.orElse (fun _ => b.notes) }
         else b), Except.ok ()) := by
  have hsnd := updateCheckOut_affected_ok t n ha hid (by rwa [isOpen] at hopen)
  have hmap : db.map (fun b => (updateCheckOutRow b i t n).1)
      = db.map (fun b => if b.id = i then
          { b with checkOutAt := some t, notes := n.orElse (fun _ => b.notes) }
        else b) := by
    apply List.map_congr_left
    intro b hb
    by_cases hbid : b.id = i
    · have hba : b = a := ids_inj hids hb ha (hbid.trans hid.symm)
      rw [if_pos hbid]
      unfold updateCheckOutRow
      rw [if_pos]
      rw [Bool.and_eq_true]
      constructor
      · simpa using hbid
      · rw [hba]
        rwa [isOpen] at hopen
    · rw [if_neg hbid, updateCheckOutRow_other b i t n hbid]
  rw [Prod.ext_iff]
  constructor
  · rw [updateCheckOut_fst, hmap]
  · exact hsnd

/-- C4.  `CheckOut` answers 404 `"No active check-in found to check out
from"` exactly when the user has no rows at all, answers the 409
`"already checked out"` conflict exactly when the user has rows but the
most recent one is closed, and otherwise stamps `check_out_at` with the
current time on the unique open row, replacing the stored notes only when
notes were supplied (`COALESCE($2, notes)`), all other rows untouched. -/
theorem checkOut_cases (db : List Attendance) (uid now : Nat)
    (notes : Option String) (hwf : DbWf db) :
    (recordsFor db uid = [] →
        checkOut db uid now notes
          = (notFoundResp "No active check-in found to check out from", db)) ∧
    (recordsFor db uid ≠ [] → openFor db uid = [] →
        checkOut db uid now notes
          = (conflictResp "User has already checked out for the last session", db)) ∧
    (∀ a ∈ db, a.userId = uid → isOpen a = true →
        checkOut db uid now notes
          = (okResp "Check-out successful" a.id,
             db.map (fun b => if b.id = a.id then
               { b with checkOutAt := some now,
                        notes := notes.orElse (fun _ => b.notes) }
             else b))) := by
  refine ⟨?_, ?_, ?_⟩
  · intro hrec
    unfold checkOut checkOutWith
    rw [getLastAttendance_eq_none_iff.mpr hrec]
  · intro hrec hopen
    obtain ⟨m, hm⟩ : ∃ m, getLastAttendance db uid = some m := by
      cases h : getLastAttendance db uid with
      | none => exact absurd (getLastAttendance_eq_none_iff.mp h) hrec
      | some m => exact ⟨m, rfl⟩
    have hclosed := getLastAttendance_closed hopen hm
    unfold checkOut checkOutWith
    rw [hm]
    dsimp only
    rw [if_pos]
    rw [isOpen] at hclosed
    cases hmo : m.checkOutAt with
    | none =>
      rw [hmo] at hclosed
      simp at hclosed
    | some v => simp [hmo]
  · intro a ha hu hao
    have hm := getLastAttendance_open hwf ha hu hao
    unfold checkOut checkOutWith
    rw [hm]
    dsimp only
    rw [if_neg]
    · rw [updateCheckOut_success now notes hwf.1 ha rfl hao]
    · rw [isOpen, Option.isNone_iff_eq_none] at hao
      simp [hao]

/-- Witness for `checkOut_cases`: a user whose single record is open checks
out; the record gains the check-out time and keeps its notes. -/
theorem checkOut_cases_witness :
    DbWf [Attendance.mk 1 7 50 none (some "hello")] ∧
    checkOut [Attendance.mk 1 7 50 none (some "hello")] 7 100 none
      = (okResp "Check-out successful" 1,
         [Attendance.mk 1 7 50 (some 100) (some "hello")]) :=
  ⟨by decide, by
    have h := (checkOut_cases [Attendance.mk 1 7 50 none (some "hello")] 7 100 none
      (by decide)).2.2 (Attendance.mk 1 7 50 none (some "hello")) (by simp) rfl rfl
    simpa using h⟩

/-- C1 (code bug).  The handler's NoScheduleToday rejection branch is dead
code: `GetScheduleByUserAndDate` maps `pgx.ErrNoRows` to `return nil, nil`
rather than passing the error up, so `errSched != nil` never holds for a
missing schedule.  No input makes `CheckIn` answer the 403 `"No schedule
found for today"` response, and a user with no schedule for today is
silently checked in: on the failing input (no schedules at all, no prior
attendance) the handler answers 200 and inserts a fresh open row. -/
theorem checkIn_no_schedule_dead_branch :
    (∀ (st : AttState) (uid now : Nat) (notes : Option String),
        respIsNoSchedule (checkIn st uid now notes).1 = false) ∧
    (checkIn (AttState.mk [] [] 1) 1 3600 none).1 = okResp "Check-in successful" 1 ∧
    (checkIn (AttState.mk [] [] 1) 1 3600 none).2.attendances
      = [Attendance.mk 1 1 3600 none none] := by
  refine ⟨?_, by decide, by decide⟩
  intro st uid now notes
  unfold checkIn
  cases hlast : getLastAttendance st.attendances uid with
  | none =>
    dsimp only
    rw [checkInSchedule_eq_insert]
    rfl
  | some a =>
    dsimp only
    by_cases hio : a.checkOutAt.isNone = true
    · rw [if_pos hio]
      rfl
    · rw [if_neg hio]
      rw [checkInSchedule_eq_insert]
      rfl

/-- C3 counterexample: the read sees an open row, a concurrent checkout
closed it before the write; the handler then answers 404 with the
repository's "not found or already checked out" message — not the 409
AlreadyCheckedOut conflict the claim names — leaving the table as the
writer left it. -/
theorem checkOut_race_counterexample :
    (checkOutWith [Attendance.mk 1 7 100 none none]
        [Attendance.mk 1 7 100 (some 150) none] 7 200 none).1.status = 404 ∧
    ((checkOutWith [Attendance.mk 1 7 100 none none]
        [Attendance.mk 1 7 100 (some 150) none] 7 200 none).1
      == conflictResp "User has already checked out for the last session") = false ∧
    (checkOutWith [Attendance.mk 1 7 100 none none]
        [Attendance.mk 1 7 100 (some 150) none] 7 200 none).2
      = [Attendance.mk 1 7 100 (some 150) none] := by
  decide

/-- C3 (amended).  The check-out write is a single UPDATE conditioned on
`check_out_at IS NULL` at write time — a row already closed at write time
is never touched — and whenever that update affects zero rows even though
the preceding read saw an open record, the handler fails with the 404
response carrying the repository's "not found or already checked out"
message, and the write-time table is returned unchanged. -/
theorem checkOut_race_amended (dbRead dbWrite : List Attendance) (uid now : Nat)
    (notes : Option String) (a : Attendance)
    (hread : getLastAttendance dbRead uid = some a)
    (hopen : isOpen a = true)
    (hclosed : ∀ b ∈ dbWrite, b.id = a.id → b.checkOutAt ≠ none) :
    checkOutWith dbRead dbWrite uid now notes
      = (notFoundResp (updateCheckOutZeroRowsMsg a.id), dbWrite) ∧
    (∀ (i t : Nat) (n : Option String) (b : Attendance),
       b.checkOutAt ≠ none → (updateCheckOutRow b i t n).1 = b) := by
  constructor
  · unfold checkOutWith
    rw [hread]
    dsimp only
    rw [if_neg]
    · rw [updateCheckOut_zero now notes hclosed]
      dsimp only
      simp
    · rw [isOpen, Option.isNone_iff_eq_none] at hopen
      simp [hopen]
  · intro i t n b hb
    exact updateCheckOutRow_closed b i t n hb

/-- Witness for `checkOut_race_amended`. -/
theorem checkOut_race_amended_witness :
    getLastAttendance [Attendance.mk 1 7 100 none none] 7
      = some (Attendance.mk 1 7 100 none none) ∧
    isOpen (Attendance.mk 1 7 100 none none) = true ∧
    (∀ b ∈ [Attendance.mk 1 7 100 (some 150) none],
        b.id = (Attendance.mk 1 7 100 none none).id → b.checkOutAt ≠ none) ∧
    checkOutWith [Attendance.mk 1 7 100 none none]
        [Attendance.mk 1 7 100 (some 150) none] 7 200 none
      = (notFoundResp (updateCheckOutZeroRowsMsg 1),
         [Attendance.mk 1 7 100 (some 150) none]) :=
  ⟨by decide, by decide, by decide,
    (checkOut_race_amended [Attendance.mk 1 7 100 none none]
      [Attendance.mk 1 7 100 (some 150) none] 7 200 none
      (Attendance.mk 1 7 100 none none) (by decide) (by decide) (by decide)).1⟩

theorem insertDesc_length (a : Attendance) (l : List Attendance) :
    (insertDesc a l).length = l.length + 1 := by
  induction l with
  | nil => rfl
  | cons b rest ih =>
    unfold insertDesc
    by_cases hb : b.checkInAt > a.checkInAt
    · rw [if_pos hb]
      simp [ih]
    · rw [if_neg hb]
      simp

theorem sortByCheckInDesc_length (l : List Attendance) :
    (sortByCheckInDesc l).length = l.length := by
  induction l with
  | nil => rfl
  | cons a rest ih => simp [sortByCheckInDesc, insertDesc_length, ih]

theorem mem_insertDesc : ∀ {l : List Attendance} {b a : Attendance},
    b ∈ insertDesc a l → b = a ∨ b ∈ l := by
  intro l
  induction l with
  | nil => intro b a h; simpa [insertDesc] using h
  | cons c rest ih =>
    intro b a h
    unfold insertDesc at h
    by_cases hc : c.checkInAt > a.checkInAt
    · rw [if_pos hc] at h
      rcases List.mem_cons.mp h with h1 | h2
      · right
        simp [h1]
      · rcases ih h2 with h3 | h4
        · left
          exact h3
        · right
          simp [h4]
    · rw [if_neg hc] at h
      rcases List.mem_cons.mp h with h1 | h2
      · left
        exact h1
      · right
        exact h2

theorem mem_sortByCheckInDesc : ∀ {l : List Attendance} {b : Attendance},
    b ∈ sortByCheckInDesc l → b ∈ l := by
  intro l
  induction l with
  | nil => intro b h; simp [sortByCheckInDesc] at h
  | cons a rest ih =>
    intro b h
    unfold sortByCheckInDesc at h
    rcases mem_insertDesc h with h1 | h2
    · simp [h1]
    · simp [ih h2]

theorem getAttendancesByUser_count (db : List Attendance) (uid s e : Nat)
    (page limit : Int) :
    (getAttendancesByUser db uid s e page limit).2
      = (db.filter (attInRange uid s e)).length := by
  unfold getAttendancesByUser
  by_cases h0 : (((db.filter (attInRange uid s e)).length == 0) = true)
  · rw [if_pos h0]
    have h1 : (db.filter (attInRange uid s e)).length = 0 := by simpa using h0
    simp [h1]
  · rw [if_neg h0]

theorem getAllAttendances_count (db : List Attendance) (s e : Nat)
    (page limit : Int) :
    (getAllAttendances db s e page limit).2
      = (db.filter (attInRangeAll s e)).length := by
  unfold getAllAttendances
  by_cases h0 : (((db.filter (attInRangeAll s e)).length == 0) = true)
  · rw [if_pos h0]
    have h1 : (db.filter (attInRangeAll s e)).length = 0 := by simpa using h0
    simp [h1]
  · rw [if_neg h0]

theorem getAttendancesByUser_mem (db : List Attendance) (uid s e : Nat)
    (page limit : Int) :
    ∀ a ∈ (getAttendancesByUser db uid s e page limit).1,
      attInRange uid s e a = true := by
  intro a ha
  unfold getAttendancesByUser at ha
  by_cases h0 : (((db.filter (attInRange uid s e)).length == 0) = true)
  · rw [if_pos h0] at ha
    simp at ha
  · rw [if_neg h0] at ha
    dsimp only at ha
    have h1 := List.mem_of_mem_take ha
    have h2 := List.mem_of_mem_drop h1
    have h3 := mem_sortByCheckInDesc h2
    exact (List.mem_filter.mp h3).2

theorem getAttendancesByUser_past_end (db : List Attendance) (uid s e : Nat)
    (page limit : Int) (hp : 1 ≤ page) (hl : 1 ≤ limit)
    (hpast : Int.ofNat (db.filter (attInRange uid s e)).length ≤ (page - 1) * limit) :
    (getAttendancesByUser db uid s e page limit).1 = [] := by
  unfold getAttendancesByUser
  by_cases h0 : (((db.filter (attInRange uid s e)).length == 0) = true)
  · rw [if_pos h0]
  · rw [if_neg h0]
    dsimp only
    have hoffnn : 0 ≤ (page - 1) * limit := mul_nonneg (by omega) (by omega)
    rw [if_neg (by omega)]
    have hdrop : (sortByCheckInDesc (db.filter (attInRange uid s e))).drop
        ((page - 1) * limit).toNat = [] := by
      apply List.drop_eq_nil_of_le
      rw [sortByCheckInDesc_length]
      have h2 := Int.toNat_le_toNat hpast
      simpa using h2
    rw [hdrop, List.take_nil]

theorem parsePagination_page_ge_one (pageQ limitQ : Option (Option Int)) :
    1 ≤ (parsePaginationParams pageQ limitQ).page := by
  rcases pageQ with _ | p
  · simp [parsePaginationParams, defaultPage]
  · rcases p with _ | pv
    · simp [parsePaginationParams, defaultPage]
    · by_cases hv : pv < 1 <;>
        (simp [parsePaginationParams, defaultPage, hv]; try omega)

theorem parsePagination_limit_bounds (pageQ limitQ : Option (Option Int)) :
    1 ≤ (parsePaginationParams pageQ limitQ).limit ∧
    (parsePaginationParams pageQ limitQ).limit ≤ 100 := by
  rcases limitQ with _ | l
  · simp [parsePaginationParams, defaultLimit, maxLimit]
  · rcases l with _ | lv
    · simp [parsePaginationParams, defaultLimit, maxLimit]
    · by_cases hv : lv < 1
      · simp [parsePaginationParams, defaultLimit, maxLimit, hv]
      · by_cases hv2 : lv > 100 <;>
          (simp [parsePaginationParams, defaultLimit, maxLimit, hv, hv2]; try omega)

theorem parsePagination_offset (pageQ limitQ : Option (Option Int)) :
    (parsePaginationParams pageQ limitQ).offset
      = ((parsePaginationParams pageQ limitQ).page - 1)
          * (parsePaginationParams pageQ limitQ).limit := by
  rcases pageQ with _ | p <;> rcases limitQ with _ | l
  · rfl
  · rfl
  · rfl
  · rfl

/-- C8.  The pagination contract: `page` falls back to 1 when missing,
unparsable, or below 1; `limit` falls back to 10 when missing, unparsable,
or below 1 and is capped at 100 — the final values always satisfy
`1 ≤ page`, `1 ≤ limit ≤ 100`, `offset = (page-1)*limit` — and the
listing computes the total with the same filter predicate as the data
query, returns only rows satisfying that predicate, and a page past the
end yields the empty sequence while the total stays the filtered count
(likewise for the unscoped admin listing). -/
theorem pagination_contract (pageQ limitQ : Option (Option Int))
    (db : List Attendance) (uid s e : Nat) (page limit : Int) :
    (1 ≤ (parsePaginationParams pageQ limitQ).page ∧
     1 ≤ (parsePaginationParams pageQ limitQ).limit ∧
     (parsePaginationParams pageQ limitQ).limit ≤ 100 ∧
     (parsePaginationParams pageQ limitQ).offset
       = ((parsePaginationParams pageQ limitQ).page - 1)
           * (parsePaginationParams pageQ limitQ).limit) ∧
    ((parsePaginationParams none limitQ).page = 1 ∧
     (parsePaginationParams (some none) limitQ).page = 1 ∧
     ∀ p : Int, p < 1 → (parsePaginationParams (some (some p)) limitQ).page = 1) ∧
    ((parsePaginationParams pageQ none).limit = 10 ∧
     (parsePaginationParams pageQ (some none)).limit = 10 ∧
     ∀ l : Int, 100 < l → (parsePaginationParams pageQ (some (some l))).limit = 100) ∧
    ((getAttendancesByUser db uid s e page limit).2
       = (db.filter (attInRange uid s e)).length) ∧
    (∀ a ∈ (getAttendancesByUser db uid s e page limit).1,
       attInRange uid s e a = true) ∧
    (1 ≤ page → 1 ≤ limit →
       Int.ofNat (db.filter (attInRange uid s e)).length ≤ (page - 1) * limit →
       (getAttendancesByUser db uid s e page limit).1 = []) ∧
    ((getAllAttendances db s e page limit).2
       = (db.filter (attInRangeAll s e)).length) := by
  refine ⟨⟨parsePagination_page_ge_one pageQ limitQ,
      (parsePagination_limit_bounds pageQ limitQ).1,
      (parsePagination_limit_bounds pageQ limitQ).2,
      parsePagination_offset pageQ limitQ⟩, ⟨rfl, rfl, ?_⟩, ⟨?_, ?_, ?_⟩,
      getAttendancesByUser_count db uid s e page limit,
      getAttendancesByUser_mem db uid s e page limit,
      getAttendancesByUser_past_end db uid s e page limit,
      getAllAttendances_count db s e page limit⟩
  · intro p hp
    simp [parsePaginationParams, defaultPage, hp]
  · rcases pageQ with _ | p
    · rfl
    · rcases p with _ | pv
      · rfl
      · by_cases hv : pv < 1 <;>
          simp [parsePaginationParams, defaultPage, defaultLimit, maxLimit, hv]
  · rcases pageQ with _ | p
    · rfl
    · rcases p with _ | pv
      · rfl
      · by_cases hv : pv < 1 <;>
          simp [parsePaginationParams, defaultPage, defaultLimit, maxLimit, hv]
  · intro l hl
    have hl1 : ¬(l < 1) := by omega
    rcases pageQ with _ | p
    · simp [parsePaginationParams, defaultPage, defaultLimit, maxLimit, hl, hl1]
    · rcases p with _ | pv
      · simp [parsePaginationParams, defaultPage, defaultLimit, maxLimit, hl, hl1]
      · by_cases hv : pv < 1 <;>
          simp [parsePaginationParams, defaultPage, defaultLimit, maxLimit, hl, hl1, hv]

/-- Witness for `pagination_contract`: an out-of-range page of a one-row
table comes back empty with the total still 1. -/
theorem pagination_contract_witness :
    (1         : Int) ≤ 5 ∧ (1 : Int) ≤ 2 ∧
    Int.ofNat ([Attendance.mk 1 7 100 none none].filter (attInRange 7 0 200)).length
      ≤ (5 - 1) * 2 ∧
    (getAttendancesByUser [Attendance.mk 1 7 100 none none] 7 0 200 5 2).1 = [] ∧
    (getAttendancesByUser [Attendance.mk 1 7 100 none none] 7 0 200 5 2).2 = 1 :=
  ⟨by decide, by decide, by decide,
    (pagination_contract (some (some 0)) (some (some 1000))
        [Attendance.mk 1 7 100 none none] 7 0 200 5 2).2.2.2.2.2.1
      (by decide) (by decide) (by decide),
    by decide⟩

theorem eqFoldChars_iff : ∀ as bs : List Char,
    eqFoldChars as bs = true ↔ as.map Char.toLower = bs.map Char.toLower := by
  intro as
  induction as with
  | nil =>
    intro bs
    cases bs <;> simp [eqFoldChars]
  | cons a as ih =>
    intro bs
    cases bs with
    | nil => simp [eqFoldChars]
    | cons b bs => simp [eqFoldChars, ih bs]

/-- C6.  The Authorization Gate allows a request exactly when validated
claims are present in the request context and the claims' role equals one
of the acceptable role names under case-insensitive comparison; absent
claims fail closed with the 403 "Cannot determine user role" response,
and a present-but-unmatched role fails with the 403 "Insufficient
privileges" response. -/
theorem authorize_gate (roles : List String) :
    authorizeMiddleware roles none
      = MwResult.halt (forbiddenResp "Forbidden: Cannot determine user role") ∧
    (∀ c : JwtClaims,
      ((authorizeMiddleware roles (some c)).isNext = true
        ↔ roleMatchesSpec c.role roles)) ∧
    (∀ c : JwtClaims, (authorizeMiddleware roles (some c)).isNext = false →
      authorizeMiddleware roles (some c)
        = MwResult.halt (forbiddenResp "Forbidden: Insufficient privileges")) := by
  refine ⟨rfl, ?_, ?_⟩
  · intro c
    unfold authorizeMiddleware
    dsimp only
    by_cases h : (roles.any fun role => equalFold c.role role) = true
    · rw [if_pos h]
      simp only [MwResult.isNext]
      constructor
      · intro _
        rw [List.any_eq_true] at h
        obtain ⟨r, hr, heq⟩ := h
        rw [equalFold] at heq
        exact ⟨r, hr, (eqFoldChars_iff _ _).mp heq⟩
      · intro _
        trivial
    · rw [if_neg h]
      simp only [MwResult.isNext]
      constructor
      · intro hfalse
        exact absurd hfalse (by simp)
      · intro hmatch
        exfalso
        apply h
        rw [List.any_eq_true]
        obtain ⟨r, hr, heq⟩ := hmatch
        refine ⟨r, hr, ?_⟩
        rw [equalFold]
        exact (eqFoldChars_iff _ _).mpr heq
  · intro c hfalse
    unfold authorizeMiddleware at hfalse ⊢
    dsimp only at hfalse ⊢
    by_cases h : (roles.any fun role => equalFold c.role role) = true
    · rw [if_pos h] at hfalse
      simp [MwResult.isNext] at hfalse
    · rw [if_neg h]

/-- Witness for `authorize_gate`: role "admin" case-insensitively matches
the acceptable role "Admin". -/
theorem authorize_gate_witness :
    (authorizeMiddleware ["Employee", "Admin"]
      (some (JwtClaims.mk 1 "bob" "admin" 259200 0 0 "absensi-app"))).isNext = true :=
  ((authorize_gate ["Employee", "Admin"]).2.1
      (JwtClaims.mk 1 "bob" "admin" 259200 0 0 "absensi-app")).mpr
    ⟨"Admin", by decide, by decide⟩

/-- C9.  Round-trip of the token service: a token issued by `GenerateJWT`
validates (within its 72-hour window) to the identical user id, username
and role; a token with an altered payload or an altered signature fails
with a signature error; a token past its expiry fails with the expiry
error; a token whose header names a non-HMAC algorithm is rejected by the
keyfunc whatever its other contents. -/
theorem jwt_round_trip (secret : String) (now now2 : Nat) (userID : Nat)
    (username role : String) (h1 : now ≤ now2) (h2 : now2 < now + 72 * 3600) :
    (validateJWT secret now2 (generateJWT secret now userID username role)
        = Except.ok (generateJWT secret now userID username role).claims ∧
     (generateJWT secret now userID username role).claims.userID = userID ∧
     (generateJWT secret now userID username role).claims.username = username ∧
     (generateJWT secret now userID username role).claims.role = role) ∧
    (∀ c2 : JwtClaims, c2 ≠ (generateJWT secret now userID username role).claims →
       validateJWT secret now2
           { generateJWT secret now userID username role with claims := c2 }
         = Except.error JwtError.badSignature) ∧
    (∀ s2 : SigVal, s2 ≠ (generateJWT secret now userID username role).sig →
       validateJWT secret now2
           { generateJWT secret now userID username role with sig := s2 }
         = Except.error JwtError.badSignature) ∧
    (∀ t3 : Nat, now + 72 * 3600 ≤ t3 →
       validateJWT secret t3 (generateJWT secret now userID username role)
         = Except.error JwtError.expired) ∧
    (∀ (tok : SignedToken) (s : String) (t : Nat), tok.alg.isHMAC = false →
       validateJWT s t tok = Except.error JwtError.badAlgorithm) := by
  refine ⟨⟨?_, rfl, rfl, rfl⟩, ?_, ?_, ?_, ?_⟩
  · unfold validateJWT generateJWT
    dsimp only
    rw [if_neg (by simp [JwtAlg.isHMAC])]
    rw [if_neg (by simp)]
    rw [if_neg (by omega)]
    rw [if_neg (by omega)]
  · intro c2 hne
    unfold validateJWT generateJWT
    dsimp only
    rw [if_neg (by simp [JwtAlg.isHMAC])]
    rw [if_pos]
    intro heq
    apply hne
    have h3 := (SigVal.hmac.injEq _ _ _ _ _ _).mp heq.symm
    exact h3.2.2
  · intro s2 hne
    unfold validateJWT generateJWT
    dsimp only
    rw [if_neg (by simp [JwtAlg.isHMAC])]
    rw [if_pos]
    unfold generateJWT at hne
    dsimp only at hne
    exact hne
  · intro t3 ht
    unfold validateJWT generateJWT
    dsimp only
    rw [if_neg (by simp [JwtAlg.isHMAC])]
    rw [if_neg (by simp)]
    rw [if_pos (by omega)]
  · intro tok s t halg
    unfold validateJWT
    rw [if_pos halg]

/-- Witness for `jwt_round_trip`: a concrete token validated one second
after issuance. -/
theorem jwt_round_trip_witness :
    (0 : Nat) ≤ 1 ∧ (1 : Nat) < 0 + 72 * 3600 ∧
    validateJWT "k" 1 (generateJWT "k" 0 1 "alice" "Admin")
      = Except.ok (generateJWT "k" 0 1 "alice" "Admin").claims :=
  ⟨by decide, by decide,
    ((jwt_round_trip "k" 0 1 1 "alice" "Admin" (by decide) (by decide)).1).1⟩

/-- C5 counterexample: a valid token whose role is "Manager" — neither
"Employee" nor "Admin", even case-insensitively — passes the user-group
middleware chain of routes.go line 73 and reaches the attendance
handlers, because the chain runs `Protected()` only; the `Authorize`
middleware that would have halted it (shown in the last conjunct) is not
installed on this group. -/
theorem user_group_gate_counterexample :
    (userGroupGate "k" 10
        (Request.mk (some (generateJWT "k" 0 5 "eve" "Manager")))).isNext = true ∧
    (match userGroupGate "k" 10
        (Request.mk (some (generateJWT "k" 0 5 "eve" "Manager"))) with
      | MwResult.next (some c) => c.role
      | _ => "") = "Manager" ∧
    (equalFold "Manager" "Employee" || equalFold "Manager" "Admin") = false ∧
    (authorizeMiddleware ["Employee", "Admin"]
        (some (JwtClaims.mk 5 "eve" "Manager" 259200 0 0 "absensi-app"))).isNext
      = false := by
  decide

/-- C5 (amended).  The check-in/check-out routes are guarded by
authentication only: every request whose bearer token validates reaches
the attendance handlers with the token's claims, whatever the role; a
missing token gets 401, and an invalid token gets 401. -/
theorem user_group_gate_amended (secret : String) (now : Nat)
    (tok : SignedToken) (claims : JwtClaims)
    (hval : validateJWT secret now tok = Except.ok claims) :
    userGroupGate secret now (Request.mk (some tok)) = MwResult.next (some claims) ∧
    userGroupGate secret now (Request.mk none)
      = MwResult.halt (unauthorizedResp "Unauthorized: Missing token") ∧
    (∀ (tok2 : SignedToken) (err : JwtError),
       validateJWT secret now tok2 = Except.error err →
       userGroupGate secret now (Request.mk (some tok2))
         = MwResult.halt (unauthorizedResp "Unauthorized: Invalid token")) := by
  refine ⟨?_, rfl, ?_⟩
  · unfold userGroupGate protectedMiddleware
    dsimp only
    rw [hval]
  · intro tok2 err hval2
    unfold userGroupGate protectedMiddleware
    dsimp only
    rw [hval2]

/-- Witness for `user_group_gate_amended`: the "Manager" token of the
counterexample's shape reaches the handler. -/
theorem user_group_gate_amended_witness :
    validateJWT "k" 1 (generateJWT "k" 0 1 "ann" "Manager")
      = Except.ok (JwtClaims.mk 1 "ann" "Manager" 259200 0 0 "absensi-app") ∧
    userGroupGate "k" 1 (Request.mk (some (generateJWT "k" 0 1 "ann" "Manager")))
      = MwResult.next (some (JwtClaims.mk 1 "ann" "Manager" 259200 0 0 "absensi-app")) :=
  ⟨by rfl,
    (user_group_gate_amended "k" 1 (generateJWT "k" 0 1 "ann" "Manager")
      (JwtClaims.mk 1 "ann" "Manager" 259200 0 0 "absensi-app") (by rfl)).1⟩

theorem strData_append (s t : String) : (s ++ t).data = s.data ++ t.data := rfl

theorem strStartsWith_append (n t : List Char) : strStartsWith n (n ++ t) = true := by
  induction n with
  | nil => rfl
  | cons a as ih => simp [strStartsWith, ih]

theorem strContainsChars_self_append (n t : List Char) :
    strContainsChars n (n ++ t) = true := by
  cases n with
  | nil => cases t <;> simp [strContainsChars, strStartsWith]
  | cons a as =>
    rw [List.cons_append]
    unfold strContainsChars
    rw [← List.cons_append, strStartsWith_append]
    simp

theorem strContainsChars_cons (n : List Char) (b : Char) (bs : List Char)
    (h : strContainsChars n bs = true) : strContainsChars n (b :: bs) = true := by
  unfold strContainsChars
  rw [h]
  simp

theorem strContainsChars_append_left (pre n rest : List Char)
    (h : strContainsChars n rest = true) :
    strContainsChars n (pre ++ rest) = true := by
  induction pre with
  | nil => simpa using h
  | cons a as ih =>
    rw [List.cons_append]
    exact strContainsChars_cons n a (as ++ rest) ih

theorem mem_of_strStartsWith : ∀ {n h : List Char},
    strStartsWith n h = true → ∀ c ∈ n, c ∈ h := by
  intro n
  induction n with
  | nil => intro h _ c hc; simp at hc
  | cons a as ih =>
    intro h hsw c hc
    cases h with
    | nil => simp [strStartsWith] at hsw
    | cons b bs =>
      rw [strStartsWith, Bool.and_eq_true] at hsw
      rcases List.mem_cons.mp hc with h1 | h2
      · subst h1
        have : c = b := by simpa using hsw.1
        simp [this]
      · simp [ih hsw.2 c h2]

theorem mem_of_strContainsChars : ∀ {hay n : List Char},
    strContainsChars n hay = true → ∀ c ∈ n, c ∈ hay := by
  intro hay
  induction hay with
  | nil =>
    intro n h c hc
    cases n with
    | nil => simp at hc
    | cons a as => simp [strContainsChars, strStartsWith] at h
  | cons b bs ih =>
    intro n h c hc
    rw [strContainsChars, Bool.or_eq_true] at h
    rcases h with h1 | h2
    · exact mem_of_strStartsWith h1 c hc
    · simp [ih h2 c hc]

theorem digitChar_ne_y (n : Nat) (h : n < 10) : Nat.digitChar n ≠ 'y' := by
  interval_cases n <;> decide

theorem toDigitsCore_ne_y : ∀ (fuel n : Nat) (ds : List Char),
    (∀ c ∈ ds, c ≠ 'y') → ∀ c ∈ Nat.toDigitsCore 10 fuel n ds, c ≠ 'y' := by
  intro fuel
  induction fuel with
  | zero =>
    intro n ds h c hc
    exact h c hc
  | succ fuel ih =>
    intro n ds h c hc
    simp only [Nat.toDigitsCore] at hc
    by_cases h0 : n / 10 = 0
    · rw [if_pos h0] at hc
      rcases List.mem_cons.mp hc with h1 | h2
      · subst h1
        exact digitChar_ne_y _ (Nat.mod_lt n (by omega))
      · exact h c h2
    · rw [if_neg h0] at hc
      refine ih (n / 10) _ ?_ c hc
      intro d hd
      rcases List.mem_cons.mp hd with h1 | h2
      · subst h1
        exact digitChar_ne_y _ (Nat.mod_lt n (by omega))
      · exact h d h2

/-- The decimal rendering of a natural number has no letter in it — in
particular never a `y`. -/
theorem toString_nat_ne_y (n : Nat) : ∀ c ∈ (toString n).data, c ≠ 'y' := by
  intro c hc
  have hdata : (toString n).data = Nat.toDigitsCore 10 (n + 1) n [] := rfl
  rw [hdata] at hc
  exact toDigitsCore_ne_y (n + 1) n [] (by simp) c hc

/-- The duplicate-schedule error text contains the fragment the handler
searches for. -/
theorem duplicate_msg_contains (uid : Nat) (ds : String) :
    containsSubstr (SchedErr.message (SchedErr.duplicateDate uid ds))
      "already has a schedule on" = true := by
  unfold containsSubstr
  have hdata : (SchedErr.message (SchedErr.duplicateDate uid ds)).data
      = ("user ".data ++ ((toString uid).data ++ [' ']))
        ++ ("already has a schedule on".data ++ (' ' :: ds.data)) := by
    show ("user " ++ toString uid ++ " already has a schedule on " ++ ds).data = _
    rw [strData_append, strData_append, strData_append]
    have hlit : (" already has a schedule on " : String).data
        = ' ' :: ("already has a schedule on".data ++ [' ']) := by decide
    rw [hlit]
    simp
  rw [hdata]
  exact strContainsChars_append_left _ _ _ (strContainsChars_self_append _ _)

/-- The invalid-reference error text starts with the fragment the handler
searches for. -/
theorem invalidRef_msg_contains (uid sid : Nat) :
    containsSubstr (SchedErr.message (SchedErr.invalidRef uid sid))
      "invalid user_id" = true := by
  unfold containsSubstr
  have hdata : (SchedErr.message (SchedErr.invalidRef uid sid)).data
      = "invalid user_id".data
        ++ (" (".data ++ ((toString uid).data
            ++ (") or shift_id (".data ++ ((toString sid).data ++ ")".data)))) := by
    show ("invalid user_id (" ++ toString uid ++ ") or shift_id ("
        ++ toString sid ++ ")").data = _
    rw [strData_append, strData_append, strData_append, strData_append]
    have hlit : ("invalid user_id (" : String).data
        = "invalid user_id".data ++ " (".data := by decide
    rw [hlit]
    simp
  rw [hdata]
  exact strContainsChars_self_append _ _

/-- The invalid-reference error text does not contain the
duplicate-schedule fragment: the fragment has a `y`, the message (all of
whose non-literal parts are decimal digits) has none. -/
theorem invalidRef_msg_no_duplicate_fragment (uid sid : Nat) :
    containsSubstr (SchedErr.message (SchedErr.invalidRef uid sid))
      "already has a schedule on" = false := by
  cases hx : containsSubstr (SchedErr.message (SchedErr.invalidRef uid sid))
      "already has a schedule on"
  · rfl
  · exfalso
    have hy : 'y' ∈ ("already has a schedule on" : String).data := by decide
    have hmem := mem_of_strContainsChars hx 'y' hy
    have hdata : (SchedErr.message (SchedErr.invalidRef uid sid)).data
        = "invalid user_id (".data ++ ((toString uid).data
            ++ (") or shift_id (".data ++ ((toString sid).data ++ ")".data))) := by
      show ("invalid user_id (" ++ toString uid ++ ") or shift_id ("
          ++ toString sid ++ ")").data = _
      rw [strData_append, strData_append, strData_append, strData_append]
      simp
    rw [hdata] at hmem
    rcases List.mem_append.mp hmem with h1 | h1
    · have : ∀ c ∈ ("invalid user_id (" : String).data, c ≠ 'y' := by decide
      exact this 'y' h1 rfl
    rcases List.mem_append.mp h1 with h2 | h2
    · exact toString_nat_ne_y uid 'y' h2 rfl
    rcases List.mem_append.mp h2 with h3 | h3
    · have : ∀ c ∈ (") or shift_id (" : String).data, c ≠ 'y' := by decide
      exact this 'y' h3 rfl
    rcases List.mem_append.mp h3 with h4 | h4
    · exact toString_nat_ne_y sid 'y' h4 rfl
    · have : ∀ c ∈ (")" : String).data, c ≠ 'y' := by decide
      exact this 'y' h4 rfl

theorem createScheduleRepo_dup (db : SchedDB) (inp : SchedInput) (d : Nat)
    (hdate : inp.dateVal = some d)
    (hdup : ∃ s ∈ db.schedules, s.userId = inp.userId ∧ s.date = d) :
    createScheduleRepo db inp
      = (Except.error (SchedErr.duplicateDate inp.userId inp.dateStr), db) := by
  unfold createScheduleRepo
  rw [hdate]
  dsimp only
  rw [if_pos]
  rw [List.any_eq_true]
  obtain ⟨s, hs, h1, h2⟩ := hdup
  exact ⟨s, hs, by simp [h1, h2]⟩

theorem createScheduleRepo_fk (db : SchedDB) (inp : SchedInput) (d : Nat)
    (hdate : inp.dateVal = some d)
    (hnodup : ∀ s ∈ db.schedules, ¬(s.userId = inp.userId ∧ s.date = d))
    (href : (db.users.contains inp.userId && db.shifts.contains inp.shiftId) = false) :
    createScheduleRepo db inp
      = (Except.error (SchedErr.invalidRef inp.userId inp.shiftId), db) := by
  unfold createScheduleRepo
  rw [hdate]
  dsimp only
  rw [if_neg]
  · rw [if_pos href]
  · intro hany
    rw [List.any_eq_true] at hany
    obtain ⟨s, hs, hmatch⟩ := hany
    rw [Bool.and_eq_true, beq_iff_eq, beq_iff_eq] at hmatch
    exact hnodup s hs hmatch

theorem createScheduleRepo_ok (db : SchedDB) (inp : SchedInput) (d : Nat)
    (hdate : inp.dateVal = some d)
    (hnodup : ∀ s ∈ db.schedules, ¬(s.userId = inp.userId ∧ s.date = d))
    (hu : inp.userId ∈ db.users) (hs : inp.shiftId ∈ db.shifts) :
    createScheduleRepo db inp
      = (Except.ok db.nextId,
         SchedDB.mk db.users db.shifts
           (db.schedules ++ [UserSchedule.mk db.nextId inp.userId inp.shiftId d])
           (db.nextId + 1)) := by
  have hcontains : (db.users.contains inp.userId && db.shifts.contains inp.shiftId) = true := by
    rw [Bool.and_eq_true]
    constructor
    · simpa using hu
    · simpa using hs
  unfold createScheduleRepo
  rw [hdate]
  dsimp only
  rw [if_neg]
  · rw [if_neg (by rw [hcontains]; simp)]
  · intro hany
    rw [List.any_eq_true] at hany
    obtain ⟨s, hsmem, hmatch⟩ := hany
    rw [Bool.and_eq_true, beq_iff_eq, beq_iff_eq] at hmatch
    exact hnodup s hsmem hmatch

theorem createScheduleHandler_dup (db : SchedDB) (inp : SchedInput) (d : Nat)
    (hdate : inp.dateVal = some d)
    (hdup : ∃ s ∈ db.schedules, s.userId = inp.userId ∧ s.date = d) :
    createScheduleHandler db inp
      = (conflictResp
          (SchedErr.message (SchedErr.duplicateDate inp.userId inp.dateStr)), db) := by
  unfold createScheduleHandler
  rw [createScheduleRepo_dup db inp d hdate hdup]
  dsimp only
  rw [if_pos (duplicate_msg_contains _ _)]

theorem createScheduleHandler_fk (db : SchedDB) (inp : SchedInput) (d : Nat)
    (hdate : inp.dateVal = some d)
    (hnodup : ∀ s ∈ db.schedules, ¬(s.userId = inp.userId ∧ s.date = d))
    (href : (db.users.contains inp.userId && db.shifts.contains inp.shiftId) = false) :
    createScheduleHandler db inp
      = (badRequestResp
          (SchedErr.message (SchedErr.invalidRef inp.userId inp.shiftId)), db) := by
  unfold createScheduleHandler
  rw [createScheduleRepo_fk db inp d hdate hnodup href]
  dsimp only
  rw [if_neg (by rw [invalidRef_msg_no_duplicate_fragment]; simp)]
  rw [if_pos (by rw [Bool.or_eq_true]; left; exact invalidRef_msg_contains _ _)]

theorem createScheduleHandler_ok (db : SchedDB) (inp : SchedInput) (d : Nat)
    (hdate : inp.dateVal = some d)
    (hnodup : ∀ s ∈ db.schedules, ¬(s.userId = inp.userId ∧ s.date = d))
    (hu : inp.userId ∈ db.users) (hs : inp.shiftId ∈ db.shifts) :
    createScheduleHandler db inp
      = (createdResp "Schedule created successfully" db.nextId,
         SchedDB.mk db.users db.shifts
           (db.schedules ++ [UserSchedule.mk db.nextId inp.userId inp.shiftId d])
           (db.nextId + 1)) := by
  unfold createScheduleHandler
  rw [createScheduleRepo_ok db inp d hdate hnodup hu hs]

/-- C7.  With a parsable date, schedule creation reports a second schedule
for the same (user, date) pair as a 409 conflict, a reference to a
missing user or shift as a 400 bad request (the two distinguished by the
underlying constraint kind), creates the row when neither constraint
fires, and after one successful creation a second creation for a
different user or a different date succeeds as well. -/
theorem schedule_create_distinguishes (db : SchedDB) (inp : SchedInput) (d : Nat)
    (hdate : inp.dateVal = some d) :
    ((∃ s ∈ db.schedules, s.userId = inp.userId ∧ s.date = d) →
        (createScheduleHandler db inp).1.status = 409 ∧
        (createScheduleHandler db inp).1.success = false ∧
        (createScheduleHandler db inp).2 = db) ∧
    ((∀ s ∈ db.schedules, ¬(s.userId = inp.userId ∧ s.date = d)) →
     (inp.userId ∉ db.users ∨ inp.shiftId ∉ db.shifts) →
        (createScheduleHandler db inp).1.status = 400 ∧
        (createScheduleHandler db inp).1.success = false ∧
        (createScheduleHandler db inp).2 = db) ∧
    ((∀ s ∈ db.schedules, ¬(s.userId = inp.userId ∧ s.date = d)) →
     inp.userId ∈ db.users → inp.shiftId ∈ db.shifts →
        (createScheduleHandler db inp).1
          = createdResp "Schedule created successfully" db.nextId ∧
        (createScheduleHandler db inp).2.schedules
          = db.schedules ++ [UserSchedule.mk db.nextId inp.userId inp.shiftId d]) ∧
    ((∀ s ∈ db.schedules, ¬(s.userId = inp.userId ∧ s.date = d)) →
     inp.userId ∈ db.users → inp.shiftId ∈ db.shifts →
     ∀ (inp2 : SchedInput) (d2 : Nat), inp2.dateVal = some d2 →
       (inp2.userId ≠ inp.userId ∨ d2 ≠ d) →
       (∀ s ∈ db.schedules, ¬(s.userId = inp2.userId ∧ s.date = d2)) →
       inp2.userId ∈ db.users → inp2.shiftId ∈ db.shifts →
       (createScheduleHandler (createScheduleHandler db inp).2 inp2).1
         = createdResp "Schedule created successfully" (db.nextId + 1)) := by
  refine ⟨?_, ?_, ?_, ?_⟩
  · intro hdup
    rw [createScheduleHandler_dup db inp d hdate hdup]
    exact ⟨rfl, rfl, rfl⟩
  · intro hnodup href
    have hrefb : (db.users.contains inp.userId && db.shifts.contains inp.shiftId)
        = false := by
      cases hb : (db.users.contains inp.userId && db.shifts.contains inp.shiftId)
      · rfl
      · exfalso
        rw [Bool.and_eq_true] at hb
        rcases href with h | h
        · exact h (by simpa using hb.1)
        · exact h (by simpa using hb.2)
    rw [createScheduleHandler_fk db inp d hdate hnodup hrefb]
    exact ⟨rfl, rfl, rfl⟩
  · intro hnodup hu hs
    rw [createScheduleHandler_ok db inp d hdate hnodup hu hs]
    exact ⟨rfl, rfl⟩
  · intro hnodup hu hs inp2 d2 hdate2 hdiff hnodup2 hu2 hs2
    rw [createScheduleHandler_ok db inp d hdate hnodup hu hs]
    have hnodup3 : ∀ s ∈ db.schedules ++ [UserSchedule.mk db.nextId inp.userId inp.shiftId d],
        ¬(s.userId = inp2.userId ∧ s.date = d2) := by
      intro s hsmem
      rcases List.mem_append.mp hsmem with h1 | h1
      · exact hnodup2 s h1
      · have hseq : s = UserSchedule.mk db.nextId inp.userId inp.shiftId d := by
          simpa using h1
        subst hseq
        rintro ⟨hus, hds⟩
        rcases hdiff with h | h
        · exact h hus.symm
        · exact h hds.symm
    have hfinal := createScheduleHandler_ok
      (SchedDB.mk db.users db.shifts
        (db.schedules ++ [UserSchedule.mk db.nextId inp.userId inp.shiftId d])
        (db.nextId + 1))
      inp2 d2 hdate2 hnodup3 hu2 hs2
    rw [hfinal]

/-- Witness for `schedule_create_distinguishes`: a successful creation,
then a duplicate on the same (user, date) pair. -/
theorem schedule_create_distinguishes_witness :
    ((SchedInput.mk 1 2 "2025-01-01" (some 100)).dateVal = some 100) ∧
    (createScheduleHandler (SchedDB.mk [1] [2] [] 10)
        (SchedInput.mk 1 2 "2025-01-01" (some 100))).1
      = createdResp "Schedule created successfully" 10 ∧
    (createScheduleHandler (SchedDB.mk [1] [2] [UserSchedule.mk 10 1 2 100] 11)
        (SchedInput.mk 1 2 "2025-01-01" (some 100))).1.status = 409 :=
  ⟨rfl,
    ((schedule_create_distinguishes (SchedDB.mk [1] [2] [] 10)
        (SchedInput.mk 1 2 "2025-01-01" (some 100)) 100 rfl).2.2.1
      (by simp) (by simp) (by simp)).1,
    ((schedule_create_distinguishes (SchedDB.mk [1] [2] [UserSchedule.mk 10 1 2 100] 11)
        (SchedInput.mk 1 2 "2025-01-01" (some 100)) 100 rfl).1
      ⟨UserSchedule.mk 10 1 2 100, by simp, rfl, rfl⟩).1⟩

/-- C10.  With no `end_date` query parameter, the self-service listing
(`GetMyAttendance`) filters with an end bound of today at 00:00:00 local
time while the admin report filters with today at 23:59:59.999999999: the
two defaults differ, and a record checked in earlier today (after
midnight) is excluded from the default self-service listing but included
in the default admin report. -/
theorem my_attendance_default_end_excludes_today (now t s : GoTime)
    (hy : t.year = now.year) (hmo : t.month = now.month) (hd : t.day = now.day)
    (hh : t.hour < 24) (hmi : t.minute < 60) (hsec : t.second < 60)
    (hns : t.nanosecond < 1000000000)
    (hafter : (myAttendanceDefaultEnd now).key < t.key)
    (hstart : s.key ≤ t.key) :
    myAttendanceEndDate now none = timeDate now.year now.month now.day 0 0 0 0 ∧
    adminEndDate now none = timeDate now.year now.month now.day 23 59 59 999999999 ∧
    (myAttendanceEndDate now none).key < (adminEndDate now none).key ∧
    checkInWithin t s (myAttendanceEndDate now none) = false ∧
    checkInWithin t s (adminEndDate now none) = true := by
  refine ⟨rfl, rfl, ?_, ?_, ?_⟩
  · simp only [myAttendanceEndDate, parseDateQueryParam, myAttendanceDefaultEnd,
      adminEndDate, adminDefaultEnd, timeDate, GoTime.key]
    omega
  · have h1 : ¬(t.key ≤ (myAttendanceEndDate now none).key) := by
      have he : myAttendanceEndDate now none = myAttendanceDefaultEnd now := rfl
      rw [he]
      omega
    simp [checkInWithin, h1]
  · have h2 : t.key ≤ (adminEndDate now none).key := by
      have he : adminEndDate now none
          = timeDate now.year now.month now.day 23 59 59 999999999 := rfl
      rw [he]
      simp only [timeDate, GoTime.key]
      omega
    simp [checkInWithin, hstart, h2]

/-- Witness for `my_attendance_default_end_excludes_today`: a record
checked in at 09:00 today, the listing called at 14:30 today with a
start bound at the first of the month. -/
theorem my_attendance_default_end_witness :
    ((GoTime.mk 2026 10 11 9 0 0 0).year = (GoTime.mk 2026 10 11 14 30 0 0).year) ∧
    (myAttendanceDefaultEnd (GoTime.mk 2026 10 11 14 30 0 0)).key
      < (GoTime.mk 2026 10 11 9 0 0 0).key ∧
    checkInWithin (GoTime.mk 2026 10 11 9 0 0 0) (GoTime.mk 2026 10 1 0 0 0 0)
      (myAttendanceEndDate (GoTime.mk 2026 10 11 14 30 0 0) none) = false ∧
    checkInWithin (GoTime.mk 2026 10 11 9 0 0 0) (GoTime.mk 2026 10 1 0 0 0 0)
      (adminEndDate (GoTime.mk 2026 10 11 14 30 0 0) none) = true :=
  ⟨rfl, by decide,
    (my_attendance_default_end_excludes_today (GoTime.mk 2026 10 11 14 30 0 0)
      (GoTime.mk 2026 10 11 9 0 0 0) (GoTime.mk 2026 10 1 0 0 0 0)
      rfl rfl rfl (by decide) (by decide) (by decide) (by decide)
      (by decide) (by decide)).2.2.2.1,
    (my_attendance_default_end_excludes_today (GoTime.mk 2026 10 11 14 30 0 0)
      (GoTime.mk 2026 10 11 9 0 0 0) (GoTime.mk 2026 10 1 0 0 0 0)
      rfl rfl rfl (by decide) (by decide) (by decide) (by decide)
      (by decide) (by decide)).2.2.2.2⟩

end Attend
